import Mathlib

/-!
Verification of `pypmc/pmc/importance_sampling.py`.

The module is embedded shallowly: log-densities take values in an arbitrary
linearly ordered field `K`, and the floating-point exponential `math.exp` is
abstracted as a function `E : K → K`; theorems that need properties of the
real exponential take them as hypotheses (`∀ a b, E (a + b) = E a * E b`,
`∀ a, 0 < E a`, injectivity), all of which hold for `Real.exp`.
Points live in an arbitrary type `α`; a proposal density is its `evaluate`
function `α → K` (log-density); the indicator-merged target is `α → Option K`,
where `none` models the value `-numpy.inf` returned for points outside the
support.  Random draws are modelled by passing the list of proposed points
explicitly to `run`; `N` is the length of that list.  Python exceptions are
modelled with `Except`.
-/

set_option autoImplicit false

namespace Pypmc

variable {K : Type} [LinearOrderedField K] {α β γ δ : Type}

/-- Python exceptions that the embedded code can raise. -/
inductive PyError where
  | assertionError (msg : String)
  | indexError
  | nameError (missing : String)
  | zeroDivisionError (msg : String)
deriving DecidableEq

/-- Modelled from the spec: the append-only, per-round sample storage
(`pypmc.tools.History`, whose source is not part of the provided files; the
spec describes it as "append-only per-round storage of rows; supports slicing
by round index and whole-history access").  `rows` is the flat list of all
stored rows and `sizes` the list of round sizes; `history[:]` is `rows` and
`history[:-1]` is the flat list of rows of all but the last round. -/
structure History (β : Type) where
  rows : List β
  sizes : List ℕ
deriving DecidableEq

/-- Modelled from the spec: a `History` starts empty. -/
def History.empty : History β := ⟨[], []⟩

/-- Modelled from the spec: `History.append(n)` starts a new round of `n` rows
(here the rows are supplied directly). -/
def History.append (h : History β) (new : List β) : History β :=
  ⟨h.rows ++ new, h.sizes ++ [new.length]⟩

/-- Modelled from the spec: `History.clear()` empties the storage. -/
def History.clear (_h : History β) : History β := ⟨[], []⟩

/-- The rows of `history[:-1]`: all rows except those of the last round. -/
def History.oldRows (h : History β) : List β :=
  h.rows.take h.sizes.dropLast.sum

/-- The exponential applied to a merged log-target value: `none` models `-numpy.inf`
(a point outside the support) and `math.exp(-inf) = 0.0`. -/
def expOpt (E : K → K) : Option K → K
  | none => 0
  | some a => E a

/-- Modelled from the spec: `pypmc.tools.merge_function_with_indicator(target,
indicator, -inf)` — "points outside the support get log-density −infinity
without invoking the expensive target".  The `indicator=None` default of the
samplers corresponds to `indicator = fun _ => true`. -/
def mergeWithIndicator (target : α → K) (indicator : α → Bool) : α → Option K :=
  fun x => if indicator x then some (target x) else none

/-- The weight computed by `ImportanceSampler._calculate_weights` for one
point: `exp(self.target(x) - self.proposal.evaluate(x))`, which is `0` when
the merged target returns `-inf`. -/
def calcWeight (E : K → K) (target : α → Option K) (proposal : α → K) (x : α) : K :=
  match target x with
  | none => 0
  | some t => E (t - proposal x)

/-- State of a plain `ImportanceSampler`: the (deep-copied) proposal, the
indicator-merged target, and `self.history` with rows `(weight, point)`. -/
structure ISState (K : Type) (α : Type) where
  proposal : α → K
  target : α → Option K
  history : History (K × α)

/-- State produced by `ImportanceSampler.__init__`: empty history. -/
def ISState.initial (target : α → Option K) (proposal : α → K) : ISState K α :=
  ⟨proposal, target, History.empty⟩

/-- One call of `ImportanceSampler.run`: `_get_samples` appends the proposed
points as one new round and `_calculate_weights` fills in their weights;
nothing else changes. -/
def ISState.run (E : K → K) (s : ISState K α) (pts : List α) : ISState K α :=
  { s with history :=
      s.history.append (pts.map fun x => (calcWeight E s.target s.proposal x, x)) }

/-- State of a `DeterministicIS`: additionally `self._deltas_targets_evaluated`
(rows `(delta, target_value)`) and `self.proposal_history` (the snapshots of
`self.proposal` deep-copied at each round). -/
structure DISState (K : Type) (α : Type) where
  proposal : α → K
  target : α → Option K
  history : History (K × α)
  deltasTargets : History (K × K)
  proposalHistory : List (α → K)

/-- State produced by `DeterministicIS.__init__`: all three structures empty. -/
def DISState.initial (target : α → Option K) (proposal : α → K) : DISState K α :=
  ⟨proposal, target, History.empty, History.empty, []⟩

/-- Model of `DeterministicIS.clear`: empties `self.history`,
`self._deltas_targets_evaluated` and `self.proposal_history`. -/
def DISState.clear (s : DISState K α) : DISState K α :=
  { s with history := s.history.clear
           deltasTargets := s.deltasTargets.clear
           proposalHistory := [] }

/-- The diagnostic message of the consistency assertions in
`DeterministicIS._calculate_weights`. -/
def inconsistencyMessage : String :=
  "Inconsistent state encountered. If you used ``self.history.clear()`` try ``self.clear()`` instead."

/-- The name of the Python local variable that is unbound — producing a
`NameError` — when a run with no new points reaches the snapshot-count
assertion. -/
def missingLoopVariable : String :=
  "i_run"

/-- Modelled from numpy: the message of the `ZeroDivisionError` raised by
`numpy.average` when the weights sum to zero (apostrophe omitted). -/
def weightsSumZeroMessage : String :=
  "Weights sum to zero, cant be normalized"

/-- The message of the `ZeroDivisionError` raised by a plain Python float
division by zero. -/
def floatDivisionByZeroMessage : String :=
  "float division by zero"

/-- The inner loop of the delta computation:
`for i_run, i_samples in enumerate(self.history): delta += len(i_samples) *
exp(self.proposal_history[i_run].evaluate(sample))`.  Iterates over the round
sizes; indexing `proposal_history` out of range raises `IndexError`. -/
def deltaFor (E : K → K) : List ℕ → List (α → K) → α → Except PyError K
  | [], _, _ => Except.ok 0
  | _ :: _, [], _ => Except.error PyError.indexError
  | n :: ns, q :: qs, x =>
    match deltaFor E ns qs x with
    | Except.error e => Except.error e
    | Except.ok rest => Except.ok ((n : K) * E (q x) + rest)

/-- The value of a fully successful delta computation:
`Σ_j N_j * exp(q_j.evaluate(x))` over the rounds `j` recorded in `sizes`
paired with the proposal snapshots `qs`. -/
def mixtureDelta (E : K → K) (sizes : List ℕ) (qs : List (α → K)) (x : α) : K :=
  ((sizes.zip qs).map fun p => (p.1 : K) * E (p.2 x)).sum

/-- Sequential error-propagating map, modelling a Python `for` loop whose body
can raise. -/
def mapME (f : α → Except PyError β) : List α → Except PyError (List β)
  | [] => Except.ok []
  | x :: xs =>
    match f x with
    | Except.error e => Except.error e
    | Except.ok y =>
      match mapME f xs with
      | Except.error e => Except.error e
      | Except.ok ys => Except.ok (y :: ys)

/-- One call of `DeterministicIS.run` with proposed points `pts`
(`N = pts.length`): `_get_samples` appends the new round (weights still
uninitialized, modelled as `0`), then `_calculate_weights` runs: append the
proposal snapshot, allocate the new auxiliary round, check the two length
assertions, evaluate the target at the new points, compute their deltas over
all snapshots, check `i_run + 1 == len(self.proposal_history)` (reading the
loop variable `i_run` raises `NameError` when no new point was iterated),
retroactively add the contribution of the newest proposal to all old deltas, and
finally overwrite the whole weight column with
`all_targets / (all_deltas / len(all_weights_samples))`. -/
def DISState.run (E : K → K) (s : DISState K α) (pts : List α) :
    Except PyError (DISState K α) :=
  let thisN := pts.length
  let history1 := s.history.append (pts.map fun x => ((0 : K), x))
  let qs := s.proposalHistory ++ [s.proposal]
  let dt1 := s.deltasTargets.append (pts.map fun _ => ((0 : K), (0 : K)))
  if history1.oldRows.length ≠ dt1.oldRows.length then
    Except.error (PyError.assertionError inconsistencyMessage)
  else if history1.rows.length ≠ dt1.rows.length then
    Except.error (PyError.assertionError inconsistencyMessage)
  else
    let thisTargets := pts.map fun x => expOpt E (s.target x)
    match mapME (deltaFor E history1.sizes qs) pts with
    | Except.error e => Except.error e
    | Except.ok thisDeltas =>
      if pts.isEmpty then Except.error (PyError.nameError missingLoopVariable)
      else if history1.sizes.length ≠ qs.length then
        Except.error (PyError.assertionError inconsistencyMessage)
      else
        let oldSamples := history1.oldRows
        let oldDT := dt1.oldRows
        let newOldDT :=
          if oldSamples.isEmpty then oldDT
          else (oldDT.zip oldSamples).map fun p =>
            (p.1.1 + (thisN : K) * E (s.proposal p.2.2), p.1.2)
        let allDT := newOldDT ++ thisDeltas.zip thisTargets
        let total : K := (history1.rows.length : K)
        let allRows := (history1.rows.zip allDT).map fun p =>
          (p.2.2 / (p.2.1 / total), p.1.2)
        Except.ok { s with
          history := ⟨allRows, history1.sizes⟩
          deltasTargets := ⟨allDT, dt1.sizes⟩
          proposalHistory := qs }

/-- Closed form of the state produced by a successful `DeterministicIS.run`
from a coherent state: every stored row is recomputed from the full list of
snapshots and round sizes. -/
def DISState.next (E : K → K) (s : DISState K α) (pts : List α) : DISState K α :=
  let sizes := s.history.sizes ++ [pts.length]
  let qs := s.proposalHistory ++ [s.proposal]
  let allPoints := s.history.rows.map Prod.snd ++ pts
  let total : K := (allPoints.length : K)
  { proposal := s.proposal
    target := s.target
    history := ⟨allPoints.map fun x =>
      (expOpt E (s.target x) / (mixtureDelta E sizes qs x / total), x), sizes⟩
    deltasTargets := ⟨allPoints.map fun x =>
      (mixtureDelta E sizes qs x, expOpt E (s.target x)),
      s.deltasTargets.sizes ++ [pts.length]⟩
    proposalHistory := qs }

/-- A `DeterministicIS` state whose auxiliary row at each index holds exactly
the accumulated mixture delta and the exponentiated target value of the sample
row at the same index. -/
def AuxRowOk (E : K → K) (target : α → Option K) (sizes : List ℕ)
    (qs : List (α → K)) (dt : K × K) (row : K × α) : Prop :=
  dt.1 = mixtureDelta E sizes qs row.2 ∧ dt.2 = expOpt E (target row.2)

/-- Coherence of a `DeterministicIS` state: both ledgers are internally
consistent, have the same round structure, there is one proposal snapshot per
round, and the stored deltas and target values are the ones the algorithm
maintains.  This invariant holds for the initial state and is preserved by
every successful `run`. -/
structure DISState.Coherent (E : K → K) (s : DISState K α) : Prop where
  hwf : s.history.rows.length = s.history.sizes.sum
  dwf : s.deltasTargets.rows.length = s.deltasTargets.sizes.sum
  sizes_eq : s.deltasTargets.sizes = s.history.sizes
  qlen : s.proposalHistory.length = s.history.sizes.length
  aux : List.Forall₂ (AuxRowOk E s.target s.history.sizes s.proposalHistory)
    s.deltasTargets.rows s.history.rows

/-- A sequence of `DeterministicIS.run` calls; before each round the caller
may update `self.proposal` (PMC adapts the proposal between rounds). -/
def runSequence (E : K → K) (s : DISState K α) :
    List ((α → K) × List α) → Except PyError (DISState K α)
  | [] => Except.ok s
  | (q, pts) :: rest =>
    match DISState.run E { s with proposal := q } pts with
    | Except.error e => Except.error e
    | Except.ok s1 => runSequence E s1 rest

/-- Model of `calculate_expectation(samples, f)`: sums the weights and the
weighted function values, then divides.  On the empty sample list the
accumulation loop never runs, `normalization` stays the plain Python float
`0.` and the final `0./0.` raises `ZeroDivisionError`.  On a nonempty numpy
input `normalization` has become a numpy scalar, and a zero weight sum makes
the final division produce `nan`/`inf` (with only a `RuntimeWarning`),
modelled as `Except.ok none`; no exception is raised then. -/
def calculate_expectation (samples : List (K × List K)) (f : List K → K) :
    Except PyError (Option K) :=
  let normalization := (samples.map Prod.fst).sum
  let out := (samples.map fun p => p.1 * f p.2).sum
  if samples.isEmpty then
    Except.error (PyError.zeroDivisionError floatDivisionByZeroMessage)
  else if normalization = 0 then Except.ok none
  else Except.ok (some (out / normalization))

/-- Modelled from numpy (an external collaborator): `numpy.average(values,
axis=0, weights=weights)` computes the weighted coordinate-wise average and
raises a `ZeroDivisionError` carrying `weightsSumZeroMessage` when
the weights sum to zero. -/
def np_average (values : List (List K)) (weights : List K) :
    Except PyError (List K) :=
  if weights.sum = 0 then
    Except.error (PyError.zeroDivisionError weightsSumZeroMessage)
  else
    Except.ok ((List.range (values.headD []).length).map fun j =>
      ((weights.zip values).map fun p => p.1 * p.2.getD j 0).sum / weights.sum)

/-- Model of `calculate_mean(samples)`: `numpy.average` of the coordinate columns
weighted by the first column. -/
def calculate_mean (samples : List (K × List K)) : Except PyError (List K) :=
  np_average (samples.map Prod.snd) (samples.map Prod.fst)

/-- Outer product of two vectors, `numpy.einsum` in the source. -/
def outer (u v : List K) : List (List K) := u.map fun a => v.map fun b => a * b

/-- Coordinate-wise difference of two vectors. -/
def vecSub (u v : List K) : List K := List.zipWith (fun a b => a - b) u v

/-- Scalar multiple of a matrix. -/
def matSmul (c : K) (m : List (List K)) : List (List K) :=
  m.map (List.map fun a => c * a)

/-- Entry-wise sum of two matrices. -/
def matAdd (m1 m2 : List (List K)) : List (List K) :=
  List.zipWith (List.zipWith fun a b => a + b) m1 m2

/-- The accumulation loop of `calculate_expectation` for a matrix-valued
function `f` (numpy array arithmetic makes the same source line generic in
the output shape of `f`). -/
def matWeightedSum (f : List K → List (List K)) :
    List (K × List K) → List (List K)
  | [] => []
  | [p] => matSmul p.1 (f p.2)
  | p :: ps => matAdd (matSmul p.1 (f p.2)) (matWeightedSum f ps)

/-- Model of `calculate_expectation` at a matrix-valued `f`, as used inside
`calculate_covariance`; same error structure as `calculate_expectation`:
plain-float `ZeroDivisionError` on the empty list, `Except.ok none` (a `nan`
result, no exception) on a nonempty list whose weights sum to zero. -/
def calculate_expectation_mat (samples : List (K × List K))
    (f : List K → List (List K)) : Except PyError (Option (List (List K))) :=
  let normalization := (samples.map Prod.fst).sum
  if samples.isEmpty then
    Except.error (PyError.zeroDivisionError floatDivisionByZeroMessage)
  else if normalization = 0 then Except.ok none
  else Except.ok (some (matSmul normalization⁻¹ (matWeightedSum f samples)))

/-- Model of `calculate_covariance(samples)`: computes the two weight sums, the
weighted mean (which raises `ZeroDivisionError` via `numpy.average` when the
weights sum to zero), then the bias-corrected weighted second moment.  A zero
correction denominator produces a `nan` result (`none`), not an exception. -/
def calculate_covariance (samples : List (K × List K)) :
    Except PyError (Option (List (List K))) :=
  let ws := samples.map Prod.fst
  let sum_weights_sq := ws.sum ^ 2
  let sum_sq_weights := (ws.map fun w => w ^ 2).sum
  match calculate_mean samples with
  | Except.error e => Except.error e
  | Except.ok mean =>
    match calculate_expectation_mat samples
        (fun x => outer (vecSub x mean) (vecSub x mean)) with
    | Except.error e => Except.error e
    | Except.ok none => Except.ok none
    | Except.ok (some m) =>
      if sum_weights_sq - sum_sq_weights = 0 then Except.ok none
      else Except.ok (some
        (matSmul (sum_weights_sq / (sum_weights_sq - sum_sq_weights)) m))


theorem History.append_rows (h : History β) (new : List β) :
    (h.append new).rows = h.rows ++ new := rfl

theorem History.append_sizes (h : History β) (new : List β) :
    (h.append new).sizes = h.sizes ++ [new.length] := rfl

theorem History.oldRows_append (h : History β) (new : List β)
    (hwf : h.rows.length = h.sizes.sum) : (h.append new).oldRows = h.rows := by
  simp [History.append, History.oldRows, List.dropLast_concat, ← hwf, List.take_left]

theorem mapME_ok (f : α → Except PyError β) (g : α → β) (l : List α)
    (h : ∀ x ∈ l, f x = Except.ok (g x)) : mapME f l = Except.ok (l.map g) := by
  induction l with
  | nil => rfl
  | cons x xs ih =>
    simp only [mapME, h x (by simp), ih fun y hy => h y (by simp [hy]), List.map_cons]

theorem deltaFor_ok (E : K → K) (sizes : List ℕ) (qs : List (α → K)) (x : α)
    (h : sizes.length ≤ qs.length) :
    deltaFor E sizes qs x = Except.ok (mixtureDelta E sizes qs x) := by
  induction sizes generalizing qs with
  | nil => simp [deltaFor, mixtureDelta]
  | cons n ns ih =>
    cases qs with
    | nil => simp at h
    | cons q qs' =>
      simp only [deltaFor, ih qs' (by simpa using h), mixtureDelta, List.zip_cons_cons,
        List.map_cons, List.sum_cons]

theorem deltaFor_err (E : K → K) (sizes : List ℕ) (qs : List (α → K)) (x : α)
    (h : qs.length < sizes.length) :
    deltaFor E sizes qs x = Except.error PyError.indexError := by
  induction sizes generalizing qs with
  | nil => simp at h
  | cons n ns ih =>
    cases qs with
    | nil => rfl
    | cons q qs' => simp only [deltaFor, ih qs' (by simpa using h)]

theorem mixtureDelta_concat (E : K → K) (sizes : List ℕ) (qs : List (α → K))
    (h : qs.length = sizes.length) (n : ℕ) (q : α → K) (x : α) :
    mixtureDelta E (sizes ++ [n]) (qs ++ [q]) x
      = mixtureDelta E sizes qs x + (n : K) * E (q x) := by
  simp [mixtureDelta, List.zip_append h.symm]

theorem zip_self_map (l : List γ) (F : γ → δ) :
    l.zip (l.map F) = l.map fun a => (a, F a) := by
  conv_lhs => rw [show l.zip (l.map F) = (l.map id).zip (l.map F) by rw [List.map_id]]
  rw [List.zip_map']
  rfl

theorem auxRows_update (E : K → K) (t : α → Option K) (sizes : List ℕ)
    (qs : List (α → K)) (c : K) (q : α → K) {dts : List (K × K)} {rows : List (K × α)}
    (haux : List.Forall₂ (AuxRowOk E t sizes qs) dts rows) :
    (dts.zip rows).map (fun p => (p.1.1 + c * E (q p.2.2), p.1.2))
      = rows.map fun row =>
          (mixtureDelta E sizes qs row.2 + c * E (q row.2), expOpt E (t row.2)) := by
  induction haux with
  | nil => rfl
  | cons hR htail ih =>
    simp only [List.zip_cons_cons, List.map_cons, ih, hR.1, hR.2]


theorem DISState.run_ok (E : K → K) (s : DISState K α) (pts : List α)
    (hC : s.Coherent E) (hne : pts ≠ []) :
    s.run E pts = Except.ok (s.next E pts) := by
  obtain ⟨hwf, dwf, hsz, hql, haux⟩ := hC
  have hlen : s.deltasTargets.rows.length = s.history.rows.length := haux.length_eq
  simp only [DISState.run]
  rw [History.oldRows_append _ _ hwf, History.oldRows_append _ _ dwf]
  rw [if_neg (not_ne_iff.mpr hlen.symm)]
  rw [if_neg (by simp [History.append, hlen])]
  rw [mapME_ok _ (mixtureDelta E (s.history.append (pts.map fun x => ((0 : K), x))).sizes
        (s.proposalHistory ++ [s.proposal])) pts
      (fun x _ => deltaFor_ok _ _ _ _ (by simp [History.append, hql]))]
  simp only []
  rw [if_neg (by simp [List.isEmpty_iff, hne])]
  rw [if_neg (by simp [History.append, hql])]
  have hmix : ∀ x : α, mixtureDelta E s.history.sizes s.proposalHistory x
      + (pts.length : K) * E (s.proposal x)
      = mixtureDelta E (s.history.sizes ++ [pts.length])
          (s.proposalHistory ++ [s.proposal]) x := by
    intro x; rw [mixtureDelta_concat E _ _ hql]
  have hupd : (if s.history.rows.isEmpty = true then s.deltasTargets.rows
      else (s.deltasTargets.rows.zip s.history.rows).map fun p =>
        (p.1.1 + (pts.length : K) * E (s.proposal p.2.2), p.1.2))
      = s.history.rows.map fun row =>
          (mixtureDelta E (s.history.sizes ++ [pts.length])
            (s.proposalHistory ++ [s.proposal]) row.2, expOpt E (s.target row.2)) := by
    by_cases h0 : s.history.rows.isEmpty
    · have hr : s.history.rows = [] := List.isEmpty_iff.mp h0
      have hd : s.deltasTargets.rows = [] := List.length_eq_zero.mp (by rw [hlen, hr]; rfl)
      simp [hr, hd]
    · rw [if_neg h0, auxRows_update E s.target _ _ ((pts.length : K)) s.proposal haux]
      refine List.map_congr_left ?_
      intro row _
      rw [hmix]
  have happend_sizes : (s.history.append (pts.map fun x => ((0:K), x))).sizes
      = s.history.sizes ++ [pts.length] := by
    simp [History.append]
  rw [happend_sizes, hupd]
  rw [show (s.history.append (pts.map fun x => ((0:K), x))).rows
      = s.history.rows ++ pts.map (fun x => ((0:K), x)) from rfl]
  rw [show (s.deltasTargets.append (pts.map fun _ => ((0:K), (0:K)))).sizes
      = s.deltasTargets.sizes ++ [pts.length] from by simp [History.append]]
  rw [List.zip_map']
  rw [List.zip_append (by simp)]
  rw [List.map_append, zip_self_map, List.zip_map', List.map_map, List.map_map]
  refine congrArg Except.ok ?_
  simp only [DISState.next, DISState.mk.injEq, History.mk.injEq, List.map_append, List.map_map,
    List.length_append, List.length_map, and_true, true_and]
  exact ⟨by congr 1, by congr 1⟩


theorem coherent_initial (E : K → K) (t : α → Option K) (q : α → K) :
    (DISState.initial t q).Coherent E :=
  ⟨rfl, rfl, rfl, rfl, List.Forall₂.nil⟩

theorem coherent_setProposal (E : K → K) (s : DISState K α) (q : α → K)
    (hC : s.Coherent E) : ({ s with proposal := q } : DISState K α).Coherent E := by
  obtain ⟨h1, h2, h3, h4, h5⟩ := hC
  exact ⟨h1, h2, h3, h4, h5⟩

theorem DISState.coherent_next (E : K → K) (s : DISState K α) (pts : List α)
    (hC : s.Coherent E) : (s.next E pts).Coherent E := by
  obtain ⟨hwf, dwf, hsz, hql, haux⟩ := hC
  refine ⟨?_, ?_, ?_, ?_, ?_⟩
  · simp [DISState.next, hwf]
  · simp [DISState.next, dwf, hsz, haux.length_eq, hwf]
  · simp [DISState.next, hsz]
  · simp [DISState.next, hql]
  · simp only [DISState.next]
    rw [List.forall₂_map_left_iff, List.forall₂_map_right_iff]
    exact List.forall₂_same.mpr fun x _ => ⟨rfl, rfl⟩

theorem DISState.run_nil (E : K → K) (s : DISState K α) (hC : s.Coherent E) :
    s.run E [] = Except.error (PyError.nameError missingLoopVariable) := by
  obtain ⟨hwf, dwf, hsz, hql, haux⟩ := hC
  have hlen : s.deltasTargets.rows.length = s.history.rows.length := haux.length_eq
  simp only [DISState.run]
  rw [History.oldRows_append _ _ hwf, History.oldRows_append _ _ dwf]
  rw [if_neg (not_ne_iff.mpr hlen.symm)]
  rw [if_neg (by simp [History.append, hlen])]
  rfl

theorem expOpt_nonneg (E : K → K) (pos : ∀ a, 0 < E a) (o : Option K) :
    0 ≤ expOpt E o := by
  cases o <;> simp [expOpt, le_of_lt (pos _)]

theorem mixtureDelta_nonneg (E : K → K) (pos : ∀ a, 0 < E a) (sizes : List ℕ)
    (qs : List (α → K)) (x : α) : 0 ≤ mixtureDelta E sizes qs x := by
  refine List.sum_nonneg ?_
  intro v hv
  simp only [List.mem_map] at hv
  obtain ⟨p, -, rfl⟩ := hv
  exact mul_nonneg (Nat.cast_nonneg _) (le_of_lt (pos _))

theorem runSequence_ok (E : K → K) (seq : List ((α → K) × List α)) :
    ∀ s : DISState K α, s.Coherent E → (∀ b ∈ seq, b.2 ≠ []) →
      ∃ s1, runSequence E s seq = Except.ok s1 ∧ s1.Coherent E ∧
        s1.history.sizes = s.history.sizes ++ seq.map (fun b => b.2.length) ∧
        s1.deltasTargets.sizes = s.deltasTargets.sizes ++ seq.map (fun b => b.2.length) ∧
        s1.proposalHistory.length = s.proposalHistory.length + seq.length ∧
        s1.target = s.target := by
  induction seq with
  | nil =>
    intro s hC _
    exact ⟨s, rfl, hC, by simp, by simp, by simp, rfl⟩
  | cons b rest ih =>
    intro s hC hne
    obtain ⟨q, pts⟩ := b
    have hC' : ({ s with proposal := q } : DISState K α).Coherent E :=
      coherent_setProposal E s q hC
    have hpts : pts ≠ [] := hne (q, pts) (by simp)
    obtain ⟨s1, hrun, hC1, hs1, hd1, hp1, ht1⟩ :=
      ih (({ s with proposal := q } : DISState K α).next E pts)
        (DISState.coherent_next E _ pts hC') (fun c hc => hne c (by simp [hc]))
    refine ⟨s1, ?_, hC1, ?_, ?_, ?_, ?_⟩
    · simp only [runSequence, DISState.run_ok E _ pts hC' hpts]
      exact hrun
    · rw [hs1]; simp [DISState.next]
    · rw [hd1]; simp [DISState.next]
    · rw [hp1]; simp [DISState.next, Nat.add_assoc, Nat.add_comm 1 rest.length]
    · rw [ht1]; rfl


/-- Claim C1: after every call to `DeterministicIS.run` with `N_r >= 1` new
points on a consistent (coherent) state, the stored weight of every sample `x`
in every round, old and new, equals
`exp(log_target(x)) / ((Σ_j N_j * exp(q_j.evaluate(x))) / N_total)`, where
`q_j` is the proposal snapshot recorded at round `j`, `N_j` is the size of
round `j`, and `N_total` is the total sample count across all rounds including
the one just appended; the entire weight column is overwritten on every run. -/
theorem deterministicIS_weight_formula (E : K → K) (s : DISState K α)
    (pts : List α) (hC : s.Coherent E) (hne : pts ≠ []) :
    ∃ s1, s.run E pts = Except.ok s1 ∧
      s1.history.sizes = s.history.sizes ++ [pts.length] ∧
      s1.proposalHistory = s.proposalHistory ++ [s.proposal] ∧
      ∀ i (h : i < s1.history.rows.length),
        (s1.history.rows[i]).1 =
          expOpt E (s.target (s1.history.rows[i]).2) /
            (mixtureDelta E s1.history.sizes s1.proposalHistory
                (s1.history.rows[i]).2 /
              (s1.history.rows.length : K)) := by
  refine ⟨s.next E pts, DISState.run_ok E s pts hC hne, by simp [DISState.next], rfl, ?_⟩
  intro i h
  simp only [DISState.next, List.getElem_map, List.length_map]

/-- Claim C10: calling `DeterministicIS.run` with `N = 0` new points always
fails with a `NameError` even on a perfectly consistent state, because the
assertion after the delta loop reads the loop variable `i_run`, which is never
bound when there is no new sample to iterate over; the plain
`ImportanceSampler` by contrast accepts `N = 0` and just appends an empty
round. -/
theorem run_zero_points_nameError (E : K → K) (s : DISState K α)
    (hC : s.Coherent E) :
    s.run E [] = Except.error (PyError.nameError missingLoopVariable) ∧
    ∀ s2 : ISState K α, (s2.run E []).history.sizes = s2.history.sizes ++ [0] ∧
      (s2.run E []).history.rows = s2.history.rows := by
  refine ⟨DISState.run_nil E s hC, fun s2 => ⟨rfl, ?_⟩⟩
  simp [ISState.run, History.append]


/-- Claim C2: for every `N >= 1`, a single-round run of `DeterministicIS`
(exactly one proposal snapshot recorded) produces exactly the same history —
samples and weights — as the plain `ImportanceSampler` on the same samples
and target: both reduce to `exp(log_target(x) - log_proposal(x))` when only
one round exists. -/
theorem singleRound_matches_plain_sampler (E : K → K)
    (hom : ∀ a b : K, E (a + b) = E a * E b) (pos : ∀ a : K, 0 < E a)
    (t : α → Option K) (q : α → K) (pts : List α) (hne : pts ≠ []) :
    ∃ s1, (DISState.initial t q).run E pts = Except.ok s1 ∧
      s1.history = ((ISState.initial t q).run E pts).history ∧
      ∀ row ∈ s1.history.rows, row.1 = calcWeight E t q row.2 := by
  have hn : ((pts.length : K)) ≠ 0 :=
    Nat.cast_ne_zero.mpr fun h => hne (List.length_eq_zero.mp h)
  have key : ∀ x : α,
      expOpt E (t x) / ((pts.length : K) * E (q x) / (pts.length : K))
        = calcWeight E t q x := by
    intro x
    rw [mul_div_cancel_left₀ _ hn]
    cases htx : t x with
    | none => simp [expOpt, calcWeight, htx]
    | some a =>
      have h1 : E a = E (a - q x) * E (q x) := by
        rw [← hom (a - q x) (q x), sub_add_cancel]
      simp only [expOpt, calcWeight, htx]
      rw [h1, mul_div_cancel_right₀ _ (ne_of_gt (pos (q x)))]
  have hhist : ((DISState.initial t q).next E pts).history
      = ((ISState.initial t q).run E pts).history := by
    simp only [DISState.next, ISState.run, ISState.initial, DISState.initial,
      History.append, History.empty, History.mk.injEq, List.nil_append,
      List.map_map, List.length_map, and_true, true_and]
    refine List.map_congr_left fun x _ => ?_
    simp only [List.map_nil, List.nil_append]
    rw [show mixtureDelta E [pts.length] [q] x = (pts.length : K) * E (q x) from by
      simp [mixtureDelta]]
    rw [key x]
  refine ⟨_, DISState.run_ok E _ pts (coherent_initial E t q) hne, hhist, ?_⟩
  rw [hhist]
  intro row hrow
  simp only [ISState.run, ISState.initial, History.append, History.empty,
    List.nil_append, List.mem_map] at hrow
  obtain ⟨x, -, rfl⟩ := hrow
  rfl


theorem calcWeight_nonneg (E : K → K) (pos : ∀ a : K, 0 < E a)
    (t : α → Option K) (q : α → K) (x : α) : 0 ≤ calcWeight E t q x := by
  unfold calcWeight
  cases t x with
  | none => exact le_refl 0
  | some a => exact le_of_lt (pos _)

/-- Claim C9: for every sample stored by either sampler, after every run the
stored weight is nonnegative — the exponential of a finite quantity, or
exactly zero when the merged target returns `-inf` for the point.  For the
plain sampler old rounds are untouched, so their nonnegativity is carried as
an invariant; the deterministic-mixture sampler overwrites the whole weight
column, so no assumption on the previous weights is needed. -/
theorem weight_nonneg (E : K → K) (pos : ∀ a : K, 0 < E a) :
    (∀ (s : ISState K α) (pts : List α),
      (∀ r ∈ s.history.rows, 0 ≤ r.1) →
      ∀ r ∈ (s.run E pts).history.rows, 0 ≤ r.1) ∧
    (∀ (s : DISState K α) (pts : List α) (s1 : DISState K α),
      s.Coherent E → s.run E pts = Except.ok s1 →
      ∀ r ∈ s1.history.rows, 0 ≤ r.1) := by
  constructor
  · intro s pts hold r hr
    simp only [ISState.run, History.append, List.mem_append] at hr
    rcases hr with hr | hr
    · exact hold r hr
    · simp only [List.mem_map] at hr
      obtain ⟨x, -, rfl⟩ := hr
      exact calcWeight_nonneg E pos s.target s.proposal x
  · intro s pts s1 hC hrun r hr
    cases pts with
    | nil =>
      rw [DISState.run_nil E s hC] at hrun
      simp at hrun
    | cons p ps =>
      rw [DISState.run_ok E s (p :: ps) hC (by simp)] at hrun
      injection hrun with h1
      subst h1
      simp only [DISState.next, List.mem_map] at hr
      obtain ⟨x, -, rfl⟩ := hr
      exact div_nonneg (expOpt_nonneg E pos _)
        (div_nonneg (mixtureDelta_nonneg E pos _ _ _) (Nat.cast_nonneg _))


/-- Claim C3: with a constant merged target `c` and two rounds of `M` points
each drawn from degenerate proposals evaluating constantly to `e1` and `e2`,
after round 1 every weight equals `exp(c - e1)` and after round 2 every one of
the `2M` stored weights equals `exp(c) / (0.5*exp(e1) + 0.5*exp(e2))`. -/
theorem degenerate_two_round_weights (E : K → K)
    (hom : ∀ a b : K, E (a + b) = E a * E b) (pos : ∀ a : K, 0 < E a)
    (c e1 e2 : K) (pts1 pts2 : List α) (h1 : pts1 ≠ [])
    (h2 : pts2.length = pts1.length) :
    ∃ s1 s2,
      (DISState.initial (fun _ => some c) (fun _ => e1)).run E pts1
          = Except.ok s1 ∧
      (∀ row ∈ s1.history.rows, row.1 = E (c - e1)) ∧
      ({ s1 with proposal := fun _ => e2 } : DISState K α).run E pts2
          = Except.ok s2 ∧
      s2.history.rows.length = 2 * pts1.length ∧
      (∀ row ∈ s2.history.rows,
        row.1 = E c / (1 / 2 * E e1 + 1 / 2 * E e2)) := by
  have hn1 : ((pts1.length : K)) ≠ 0 :=
    Nat.cast_ne_zero.mpr fun h => h1 (List.length_eq_zero.mp h)
  have h2ne : pts2 ≠ [] := by
    intro h
    rw [h] at h2
    exact h1 (List.length_eq_zero.mp h2.symm)
  have hdiv : ∀ a b : K, E a / E b = E (a - b) := by
    intro a b
    have hab : E a = E (a - b) * E b := by rw [← hom (a - b) b, sub_add_cancel]
    rw [hab, mul_div_cancel_right₀ _ (ne_of_gt (pos b))]
  have hC0 := coherent_initial E (fun _ : α => some c) (fun _ : α => e1)
  have hrun1 := DISState.run_ok E (DISState.initial (fun _ => some c) (fun _ => e1))
    pts1 hC0 h1
  have hC1 := DISState.coherent_next E _ pts1 hC0
  have hC1p := coherent_setProposal E
    ((DISState.initial (fun _ => some c) (fun _ => e1)).next E pts1) (fun _ => e2) hC1
  have hrun2 := DISState.run_ok E _ pts2 hC1p h2ne
  refine ⟨_, _, hrun1, ?_, hrun2, ?_, ?_⟩
  · intro row hrow
    simp only [DISState.next, DISState.initial, History.empty, List.map_nil,
      List.nil_append, List.mem_map] at hrow
    obtain ⟨x, -, rfl⟩ := hrow
    simp only [expOpt]
    rw [show mixtureDelta E [pts1.length] [fun _ : α => e1] x
        = (pts1.length : K) * E e1 from by simp [mixtureDelta]]
    rw [mul_div_cancel_left₀ _ hn1]
    exact hdiv c e1
  · simp [DISState.next, DISState.initial, History.empty, h2]
    omega
  · intro row hrow
    simp only [DISState.next, DISState.initial, History.empty, List.map_nil,
      List.nil_append, List.map_map, List.mem_map, List.mem_append] at hrow
    obtain ⟨x, -, rfl⟩ := hrow
    simp only [expOpt]
    rw [show mixtureDelta E ([pts1.length] ++ [pts2.length])
        ([fun _ : α => e1] ++ [fun _ : α => e2]) x
        = (pts1.length : K) * E e1 + (pts2.length : K) * E e2 from by
      simp [mixtureDelta]]
    have hM : (0 : K) < (pts1.length : K) := by
      have := Nat.pos_of_ne_zero fun h => h1 (List.length_eq_zero.mp h)
      exact_mod_cast this
    rw [h2]
    congr 1
    simp only [List.length_append, List.length_map]
    rw [h2]
    push_cast
    field_simp
    ring


/-- Claim C4 (amended): in a two-round `DeterministicIS` execution, round 2
leaves a round-1 weight unchanged when the two snapshots evaluate identically
at every round-1 sample, and changes the stored weight of a round-1 sample
whenever the two snapshots evaluate differently at that sample, provided the
sample is in the support of the target (nonzero target value) — a sample with
target value zero keeps weight `0` no matter what the proposals do. -/
theorem retroactive_correction (E : K → K) (pos : ∀ a : K, 0 < E a)
    (inj : Function.Injective E) (t : α → Option K) (q1 q2 : α → K)
    (pts1 pts2 : List α) (h1 : pts1 ≠ []) (h2 : pts2 ≠ []) :
    ∃ s1 s2,
      (DISState.initial t q1).run E pts1 = Except.ok s1 ∧
      ({ s1 with proposal := q2 } : DISState K α).run E pts2 = Except.ok s2 ∧
      ((∀ x ∈ pts1, q1 x = q2 x) →
        ∀ i, i < pts1.length →
          (s2.history.rows.map Prod.fst)[i]? = (s1.history.rows.map Prod.fst)[i]?) ∧
      (∀ i (hi : i < pts1.length),
        q1 (pts1.get ⟨i, hi⟩) ≠ q2 (pts1.get ⟨i, hi⟩) →
        t (pts1.get ⟨i, hi⟩) ≠ none →
        (s2.history.rows.map Prod.fst)[i]? ≠ (s1.history.rows.map Prod.fst)[i]?) := by
  have hn1 : (0 : K) < (pts1.length : K) := by
    exact_mod_cast Nat.pos_of_ne_zero fun h => h1 (List.length_eq_zero.mp h)
  have hn2 : (0 : K) < (pts2.length : K) := by
    exact_mod_cast Nat.pos_of_ne_zero fun h => h2 (List.length_eq_zero.mp h)
  have hC0 := coherent_initial E t q1
  have hrun1 := DISState.run_ok E (DISState.initial t q1) pts1 hC0 h1
  have hC1 := DISState.coherent_next E _ pts1 hC0
  have hC1p := coherent_setProposal E ((DISState.initial t q1).next E pts1) q2 hC1
  have hrun2 := DISState.run_ok E _ pts2 hC1p h2
  have hval1 : ∀ x : α, mixtureDelta E [pts1.length] [q1] x
      = (pts1.length : K) * E (q1 x) := by
    intro x; simp [mixtureDelta]
  have hfst1 : (((DISState.initial t q1).next E pts1).history.rows.map Prod.fst)
      = pts1.map (fun x => expOpt E (t x)
          / (mixtureDelta E [pts1.length] [q1] x / (pts1.length : K))) := by
    simp [DISState.next, DISState.initial, History.empty, List.map_map, Function.comp]
  have hfst2 : ((({ (DISState.initial t q1).next E pts1 with proposal := q2 }
        : DISState K α).next E pts2).history.rows.map Prod.fst)
      = (pts1 ++ pts2).map (fun x => expOpt E (t x)
          / (mixtureDelta E [pts1.length, pts2.length] [q1, q2] x
              / ((pts1.length : K) + (pts2.length : K)))) := by
    simp only [DISState.next, DISState.initial, History.empty, List.map_nil,
      List.nil_append, List.map_map, List.map_append, List.length_append,
      List.length_map, Nat.cast_add]
    congr 1
  have hget1 : ∀ i (hi : i < pts1.length),
      (((DISState.initial t q1).next E pts1).history.rows.map Prod.fst)[i]?
        = some (expOpt E (t (pts1.get ⟨i, hi⟩))
            / (mixtureDelta E [pts1.length] [q1] (pts1.get ⟨i, hi⟩)
                / (pts1.length : K))) := by
    intro i hi
    rw [hfst1, List.getElem?_map, List.getElem?_eq_getElem hi]
    rfl
  have hget2 : ∀ i (hi : i < pts1.length),
      ((({ (DISState.initial t q1).next E pts1 with proposal := q2 }
          : DISState K α).next E pts2).history.rows.map Prod.fst)[i]?
        = some (expOpt E (t (pts1.get ⟨i, hi⟩))
            / (mixtureDelta E [pts1.length, pts2.length] [q1, q2] (pts1.get ⟨i, hi⟩)
                / ((pts1.length : K) + (pts2.length : K)))) := by
    intro i hi
    rw [hfst2, List.map_append, List.getElem?_append_left (by simpa using hi),
      List.getElem?_map, List.getElem?_eq_getElem hi]
    rfl
  have hval2 : ∀ x : α, mixtureDelta E [pts1.length, pts2.length] [q1, q2] x
      = (pts1.length : K) * E (q1 x) + (pts2.length : K) * E (q2 x) := by
    intro x; simp [mixtureDelta]
  refine ⟨_, _, hrun1, hrun2, ?_, ?_⟩
  · intro hagree i hi
    rw [hget1 i hi, hget2 i hi]
    have hq : q1 (pts1.get ⟨i, hi⟩) = q2 (pts1.get ⟨i, hi⟩) :=
      hagree _ (List.get_mem pts1 i hi)
    rw [hval1, hval2, ← hq]
    rw [show (pts1.length : K) * E (q1 (pts1.get ⟨i, hi⟩))
          + (pts2.length : K) * E (q1 (pts1.get ⟨i, hi⟩))
        = ((pts1.length : K) + (pts2.length : K)) * E (q1 (pts1.get ⟨i, hi⟩)) from by ring]
    rw [mul_div_cancel_left₀ _ (ne_of_gt (add_pos hn1 hn2)),
      mul_div_cancel_left₀ _ (ne_of_gt hn1)]
  · intro i hi hneq htx heq
    rw [hget1 i hi, hget2 i hi] at heq
    obtain ⟨a, ha⟩ := Option.ne_none_iff_exists'.mp htx
    rw [hval1, hval2, ha] at heq
    simp only [expOpt, Option.some.injEq] at heq
    set x := pts1.get ⟨i, hi⟩ with hx
    set M := (pts1.length : K) with hM
    set N := (pts2.length : K) with hN
    have hd2 : (0 : K) < (M * E (q1 x) + N * E (q2 x)) / (M + N) :=
      div_pos (add_pos (mul_pos hn1 (pos _)) (mul_pos hn2 (pos _))) (add_pos hn1 hn2)
    have hd1 : (0 : K) < M * E (q1 x) / M := by
      rw [mul_div_cancel_left₀ _ (ne_of_gt hn1)]; exact pos _
    have hdd : (M * E (q1 x) + N * E (q2 x)) / (M + N) = M * E (q1 x) / M := by
      have h3 := (div_eq_div_iff (ne_of_gt hd2) (ne_of_gt hd1)).mp heq
      exact (mul_left_cancel₀ (ne_of_gt (pos a)) h3).symm
    rw [mul_div_cancel_left₀ _ (ne_of_gt hn1)] at hdd
    have h4 : M * E (q1 x) + N * E (q2 x) = E (q1 x) * (M + N) :=
      (div_eq_iff (ne_of_gt (add_pos hn1 hn2))).mp hdd
    have h5 : N * E (q2 x) = N * E (q1 x) := by linear_combination h4
    have h6 : E (q2 x) = E (q1 x) := mul_left_cancel₀ (ne_of_gt hn2) h5
    exact hneq (inj h6.symm)


/-- Claim C5: `ImportanceSampler.run(N)` draws the `N` proposed points (passed
explicitly here, in place of `proposal.propose(N, rng)`), appends exactly one
new round of `N` rows to the sample ledger, and sets the weight of each point to
`exp(log_target(x) - log_proposal(x))`; the indicator-merged target gives
weight `0` for points outside the support and the result never depends on the
values of the true target outside the support; neither the proposal nor the target
is mutated. -/
theorem importance_sampler_contract (E : K → K) (t : α → K) (ind : α → Bool)
    (q : α → K) (hist : History (K × α)) (pts : List α) :
    ((ISState.mk q (mergeWithIndicator t ind) hist).run E pts).history.sizes
        = hist.sizes ++ [pts.length] ∧
    ((ISState.mk q (mergeWithIndicator t ind) hist).run E pts).history.rows
        = hist.rows ++ pts.map (fun x =>
            (calcWeight E (mergeWithIndicator t ind) q x, x)) ∧
    (∀ x, ind x = true →
      calcWeight E (mergeWithIndicator t ind) q x = E (t x - q x)) ∧
    (∀ x, ind x = false → calcWeight E (mergeWithIndicator t ind) q x = 0) ∧
    (∀ t2 : α → K, (∀ x, ind x = true → t x = t2 x) →
      ((ISState.mk q (mergeWithIndicator t ind) hist).run E pts).history
        = ((ISState.mk q (mergeWithIndicator t2 ind) hist).run E pts).history) ∧
    ((ISState.mk q (mergeWithIndicator t ind) hist).run E pts).proposal = q ∧
    ((ISState.mk q (mergeWithIndicator t ind) hist).run E pts).target
        = mergeWithIndicator t ind := by
  refine ⟨by simp [ISState.run, History.append], rfl, ?_, ?_, ?_, rfl, rfl⟩
  · intro x hx
    simp [calcWeight, mergeWithIndicator, hx]
  · intro x hx
    simp [calcWeight, mergeWithIndicator, hx]
  · intro t2 hagree
    have hmap : pts.map (fun x => (calcWeight E (mergeWithIndicator t ind) q x, x))
        = pts.map (fun x => (calcWeight E (mergeWithIndicator t2 ind) q x, x)) := by
      refine List.map_congr_left fun x _ => ?_
      cases hix : ind x with
      | false => simp [calcWeight, mergeWithIndicator, hix]
      | true => simp [calcWeight, mergeWithIndicator, hix, hagree x hix]
    simp only [ISState.run, hmap]

/-- Claim C6: if at the start of a `DeterministicIS.run` the two ledgers have
different row counts, the run fails immediately with the `AssertionError`
carrying the inconsistency diagnostic; if the number of recorded rounds
disagrees with the length of the proposal-snapshot list (e.g. because the
caller cleared `self.history` without calling `self.clear()`), the run also
raises before any weight is written (`AssertionError` or `IndexError`,
depending on the direction of the mismatch).  In both cases no weights are
produced. -/
theorem consistency_errors_fatal (E : K → K) (s : DISState K α) (pts : List α)
    (hwfH : s.history.rows.length = s.history.sizes.sum)
    (hwfD : s.deltasTargets.rows.length = s.deltasTargets.sizes.sum) :
    (s.history.rows.length ≠ s.deltasTargets.rows.length →
      s.run E pts = Except.error (PyError.assertionError inconsistencyMessage)) ∧
    (s.history.sizes.length ≠ s.proposalHistory.length →
      ∃ e, s.run E pts = Except.error e) := by
  constructor
  · intro hmis
    simp only [DISState.run]
    rw [History.oldRows_append _ _ hwfH, History.oldRows_append _ _ hwfD]
    rw [if_pos hmis]
  · intro hmis
    by_cases hrows : s.history.rows.length = s.deltasTargets.rows.length
    · simp only [DISState.run]
      rw [History.oldRows_append _ _ hwfH, History.oldRows_append _ _ hwfD]
      rw [if_neg (not_ne_iff.mpr hrows)]
      rw [if_neg (by simp [History.append, hrows])]
      rcases Nat.lt_or_ge s.proposalHistory.length s.history.sizes.length with hlt | hge
      · cases pts with
        | nil => exact ⟨PyError.nameError missingLoopVariable, rfl⟩
        | cons p ps =>
          have herr := deltaFor_err E
            ((s.history.append ((p :: ps).map fun x => ((0 : K), x))).sizes)
            (s.proposalHistory ++ [s.proposal]) p
            (by simp only [History.append, List.length_append, List.length_cons,
                  List.length_map]; simp; omega)
          rw [show mapME (deltaFor E
                ((s.history.append ((p :: ps).map fun x => ((0 : K), x))).sizes)
                (s.proposalHistory ++ [s.proposal])) (p :: ps)
              = Except.error PyError.indexError from by
            rw [mapME, herr]]
          exact ⟨PyError.indexError, rfl⟩
      · cases pts with
        | nil => exact ⟨PyError.nameError missingLoopVariable, rfl⟩
        | cons p ps =>
          rw [mapME_ok _ (mixtureDelta E
              ((s.history.append ((p :: ps).map fun x => ((0 : K), x))).sizes)
              (s.proposalHistory ++ [s.proposal])) (p :: ps)
            (fun x _ => deltaFor_ok _ _ _ _ (by simp [History.append]; omega))]
          simp only []
          rw [if_neg (by simp)]
          rw [if_pos (by simp [History.append]; omega)]
          exact ⟨PyError.assertionError inconsistencyMessage, rfl⟩
    · exact ⟨PyError.assertionError inconsistencyMessage, by
        simp only [DISState.run]
        rw [History.oldRows_append _ _ hwfH, History.oldRows_append _ _ hwfD]
        rw [if_pos hrows]⟩

/-- Claim C7: after `k` successful calls to `DeterministicIS.run` with round
sizes `N_1..N_k` starting from the initial state, the sample ledger holds
exactly `Σ N_i` rows in `k` rounds, the auxiliary ledger has the same row and
round structure, and the snapshot list has length `k`; `clear()` returns all
three structures to the initial empty state, and `clear()` is idempotent. -/
theorem round_count_invariant_and_clear (E : K → K) (t : α → Option K)
    (q0 : α → K) (seq : List ((α → K) × List α)) (hne : ∀ b ∈ seq, b.2 ≠ []) :
    (∃ s1, runSequence E (DISState.initial t q0) seq = Except.ok s1 ∧
      s1.history.sizes = seq.map (fun b => b.2.length) ∧
      s1.history.rows.length = (seq.map (fun b => b.2.length)).sum ∧
      s1.deltasTargets.sizes = s1.history.sizes ∧
      s1.deltasTargets.rows.length = s1.history.rows.length ∧
      s1.proposalHistory.length = seq.length ∧
      s1.clear = DISState.initial s1.target s1.proposal) ∧
    (∀ s : DISState K α, s.clear.clear = s.clear) := by
  constructor
  · obtain ⟨s1, hrun, hC1, hs, hd, hp, ht⟩ :=
      runSequence_ok E seq (DISState.initial t q0) (coherent_initial E t q0) hne
    have hs' : s1.history.sizes = seq.map (fun b => b.2.length) := by simpa using hs
    refine ⟨s1, hrun, hs', ?_, hC1.sizes_eq, hC1.aux.length_eq, by simpa [DISState.initial] using hp, rfl⟩
    rw [hC1.hwf, hs']
  · intro s
    rfl

/-- Claim C8 (amended): with all weights zero, `calculate_mean` and
`calculate_covariance` fail with the explicit
`ZeroDivisionError` carrying `weightsSumZeroMessage` raised by
`numpy.average`; `calculate_expectation` raises nothing for a nonempty
input — its numpy-scalar `0.0/0.0` float division silently yields `nan`
(modelled as `Except.ok none`), diagnosed only by a `RuntimeWarning` — and
raises the plain-float `ZeroDivisionError` only in the degenerate
empty-input case. -/
theorem moment_estimators_zero_weights (samples : List (K × List K))
    (f : List K → K) (hz : ∀ p ∈ samples, p.1 = 0) :
    (samples ≠ [] → calculate_expectation samples f = Except.ok none) ∧
    (samples = [] → calculate_expectation samples f = Except.error
      (PyError.zeroDivisionError floatDivisionByZeroMessage)) ∧
    calculate_mean samples = Except.error
      (PyError.zeroDivisionError weightsSumZeroMessage) ∧
    calculate_covariance samples = Except.error
      (PyError.zeroDivisionError weightsSumZeroMessage) := by
  have hsum : (samples.map Prod.fst).sum = 0 := by
    refine List.sum_eq_zero ?_
    intro x hx
    simp only [List.mem_map] at hx
    obtain ⟨p, hp, rfl⟩ := hx
    exact hz p hp
  refine ⟨?_, ?_, ?_, ?_⟩
  · intro hne
    simp [calculate_expectation, hsum, hne]
  · intro he
    subst he
    simp [calculate_expectation]
  · simp [calculate_mean, np_average, hsum]
  · simp [calculate_covariance, calculate_mean, np_average, hsum]

/-- Claim C4, counterexample to the claim as stated: with the merged target
`-inf` everywhere (a point outside the support), round-1 proposal constantly
`0` and round-2 proposal constantly `1`, the two snapshots evaluate
differently at the round-1 sample, yet the stored round-1 weight is `0` both
before and after round 2 — round 2 does not change it. -/
theorem retroactive_correction_cex :
    ((fun _ : ℚ => (0 : ℝ)) 0 ≠ (fun _ : ℚ => (1 : ℝ)) 0) ∧
    (DISState.initial (fun _ : ℚ => (none : Option ℝ)) (fun _ => (0 : ℝ))).run
        Real.exp [0]
      = Except.ok ((DISState.initial (fun _ : ℚ => (none : Option ℝ))
          (fun _ => (0 : ℝ))).next Real.exp [0]) ∧
    ({ (DISState.initial (fun _ : ℚ => (none : Option ℝ))
          (fun _ => (0 : ℝ))).next Real.exp [0]
        with proposal := fun _ => (1 : ℝ) } : DISState ℝ ℚ).run Real.exp [0]
      = Except.ok (({ (DISState.initial (fun _ : ℚ => (none : Option ℝ))
          (fun _ => (0 : ℝ))).next Real.exp [0]
        with proposal := fun _ => (1 : ℝ) } : DISState ℝ ℚ).next Real.exp [0]) ∧
    ((DISState.initial (fun _ : ℚ => (none : Option ℝ))
        (fun _ => (0 : ℝ))).next Real.exp [0]).history.rows.map Prod.fst = [0] ∧
    (({ (DISState.initial (fun _ : ℚ => (none : Option ℝ))
          (fun _ => (0 : ℝ))).next Real.exp [0]
        with proposal := fun _ => (1 : ℝ) } : DISState ℝ ℚ).next Real.exp
          [0]).history.rows.map Prod.fst = [0, 0] := by
  refine ⟨by norm_num, DISState.run_ok _ _ _ (coherent_initial _ _ _) (by simp),
    DISState.run_ok _ _ _
      (coherent_setProposal _ _ _
        (DISState.coherent_next _ _ _ (coherent_initial _ _ _))) (by simp),
    ?_, ?_⟩
  · simp [DISState.next, DISState.initial, History.empty, expOpt]
  · simp [DISState.next, DISState.initial, History.empty, expOpt]

/-- Claim C8, counterexample to the claim as stated: with every weight zero
on a nonempty input, `calculate_expectation` reports no error at all — the
Python code completes its numpy-scalar `0.0/0.0` division and returns `nan`
(modelled as `Except.ok none`, with only a `RuntimeWarning` emitted), while
`calculate_mean` on the very same input does raise `ZeroDivisionError`; hence
"calculate_expectation ... reports an explicit numerical-degeneracy error" is
false on the code. -/
theorem moment_estimators_zero_weights_cex :
    calculate_expectation [((0 : ℚ), [1]), (0, [2])] (fun _ => 3)
      = Except.ok none ∧
    calculate_mean [((0 : ℚ), [1]), (0, [2])] = Except.error
      (PyError.zeroDivisionError weightsSumZeroMessage) := by
  constructor
  · simp [calculate_expectation]
  · simp [calculate_mean, np_average]

/-- Witness for C1: one run of one point on the initial state, with the
identity in place of `exp`. -/
theorem deterministicIS_weight_formula_witness :
    (DISState.initial (fun _ : ℚ => some (0 : ℚ)) (fun _ : ℚ => (0 : ℚ))).Coherent
        (fun a : ℚ => a) ∧
    ([(0 : ℚ)] ≠ []) ∧
    ∃ s1, (DISState.initial (fun _ : ℚ => some (0 : ℚ))
        (fun _ : ℚ => (0 : ℚ))).run (fun a : ℚ => a) [0] = Except.ok s1 ∧
      s1.history.sizes = [1] ∧
      s1.proposalHistory = [fun _ : ℚ => (0 : ℚ)] ∧
      ∀ i (h : i < s1.history.rows.length),
        (s1.history.rows[i]).1 =
          expOpt (fun a : ℚ => a) (some 0) /
            (mixtureDelta (fun a : ℚ => a) s1.history.sizes s1.proposalHistory
                (s1.history.rows[i]).2 / (s1.history.rows.length : ℚ)) :=
  ⟨coherent_initial _ _ _, by simp,
    deterministicIS_weight_formula (fun a : ℚ => a) _ [0]
      (coherent_initial _ _ _) (by simp)⟩

/-- Witness for C2: the constant-one exponential satisfies the homomorphism
and positivity hypotheses over `ℚ`. -/
theorem singleRound_matches_plain_sampler_witness :
    (∀ a b : ℚ, (fun _ : ℚ => (1 : ℚ)) (a + b)
        = (fun _ : ℚ => (1 : ℚ)) a * (fun _ : ℚ => (1 : ℚ)) b) ∧
    (∀ a : ℚ, (0 : ℚ) < (fun _ : ℚ => (1 : ℚ)) a) ∧
    ([(0 : ℚ)] ≠ []) ∧
    ∃ s1, (DISState.initial (fun _ : ℚ => some (0 : ℚ))
        (fun _ : ℚ => (0 : ℚ))).run (fun _ : ℚ => (1 : ℚ)) [0] = Except.ok s1 ∧
      s1.history = ((ISState.initial (fun _ : ℚ => some (0 : ℚ))
          (fun _ : ℚ => (0 : ℚ))).run (fun _ : ℚ => (1 : ℚ)) [0]).history ∧
      ∀ row ∈ s1.history.rows,
        row.1 = calcWeight (fun _ : ℚ => (1 : ℚ)) (fun _ : ℚ => some (0 : ℚ))
          (fun _ : ℚ => (0 : ℚ)) row.2 :=
  ⟨fun _ _ => by norm_num, fun _ => by norm_num, by simp,
    singleRound_matches_plain_sampler (fun _ : ℚ => (1 : ℚ))
      (fun _ _ => by norm_num) (fun _ => by norm_num)
      (fun _ : ℚ => some (0 : ℚ)) (fun _ : ℚ => (0 : ℚ)) [0] (by simp)⟩

/-- Witness for C3: two one-point rounds with the constant-one exponential. -/
theorem degenerate_two_round_weights_witness :
    ([(0 : ℚ)] ≠ []) ∧
    ([(1 : ℚ)].length = [(0 : ℚ)].length) ∧
    ∃ s1 s2,
      (DISState.initial (fun _ : ℚ => some (1 : ℚ))
          (fun _ : ℚ => (2 : ℚ))).run (fun _ : ℚ => (1 : ℚ)) [0]
        = Except.ok s1 ∧
      (∀ row ∈ s1.history.rows, row.1 = (fun _ : ℚ => (1 : ℚ)) (1 - 2)) ∧
      ({ s1 with proposal := fun _ : ℚ => (3 : ℚ) } : DISState ℚ ℚ).run
          (fun _ : ℚ => (1 : ℚ)) [1] = Except.ok s2 ∧
      s2.history.rows.length = 2 * 1 ∧
      (∀ row ∈ s2.history.rows,
        row.1 = (1 : ℚ) / (1 / 2 * 1 + 1 / 2 * 1)) :=
  ⟨by simp, rfl,
    degenerate_two_round_weights (fun _ : ℚ => (1 : ℚ))
      (fun _ _ => by norm_num) (fun _ => by norm_num) 1 2 3 [0] [1]
      (by simp) rfl⟩

/-- Witness for C4 (amended), at the real exponential: in-support constant
target, proposals `0` and `1`, one point per round. -/
theorem retroactive_correction_witness :
    (∀ a : ℝ, 0 < Real.exp a) ∧
    Function.Injective Real.exp ∧
    ([(0 : ℚ)] ≠ []) ∧
    ∃ s1 s2,
      (DISState.initial (fun _ : ℚ => some (0 : ℝ))
          (fun _ : ℚ => (0 : ℝ))).run Real.exp [0] = Except.ok s1 ∧
      ({ s1 with proposal := fun _ : ℚ => (1 : ℝ) } : DISState ℝ ℚ).run
          Real.exp [0] = Except.ok s2 ∧
      ((∀ x ∈ [(0 : ℚ)], (fun _ : ℚ => (0 : ℝ)) x = (fun _ : ℚ => (1 : ℝ)) x) →
        ∀ i, i < [(0 : ℚ)].length →
          (s2.history.rows.map Prod.fst)[i]?
            = (s1.history.rows.map Prod.fst)[i]?) ∧
      (∀ i (hi : i < [(0 : ℚ)].length),
        (fun _ : ℚ => (0 : ℝ)) ([(0 : ℚ)].get ⟨i, hi⟩)
            ≠ (fun _ : ℚ => (1 : ℝ)) ([(0 : ℚ)].get ⟨i, hi⟩) →
        (fun _ : ℚ => some (0 : ℝ)) ([(0 : ℚ)].get ⟨i, hi⟩) ≠ none →
        (s2.history.rows.map Prod.fst)[i]?
          ≠ (s1.history.rows.map Prod.fst)[i]?) :=
  ⟨Real.exp_pos, Real.exp_injective, by simp,
    retroactive_correction Real.exp Real.exp_pos Real.exp_injective
      (fun _ : ℚ => some (0 : ℝ)) (fun _ : ℚ => (0 : ℝ)) (fun _ : ℚ => (1 : ℝ))
      [0] [0] (by simp) (by simp)⟩

/-- Witness for C5 at a concrete one-point run. -/
theorem importance_sampler_contract_witness :
    ((ISState.mk (fun _ : ℚ => (1 : ℚ))
        (mergeWithIndicator (fun _ : ℚ => (0 : ℚ)) (fun _ => true))
        History.empty).run (fun a : ℚ => a) [0]).history.sizes = [1] ∧
    ((ISState.mk (fun _ : ℚ => (1 : ℚ))
        (mergeWithIndicator (fun _ : ℚ => (0 : ℚ)) (fun _ => true))
        History.empty).run (fun a : ℚ => a) [0]).history.rows
      = [(calcWeight (fun a : ℚ => a)
          (mergeWithIndicator (fun _ : ℚ => (0 : ℚ)) (fun _ => true))
          (fun _ : ℚ => (1 : ℚ)) 0, 0)] ∧
    (∀ x : ℚ, (fun _ : ℚ => true) x = true →
      calcWeight (fun a : ℚ => a)
          (mergeWithIndicator (fun _ : ℚ => (0 : ℚ)) (fun _ => true))
          (fun _ : ℚ => (1 : ℚ)) x = (fun a : ℚ => a) (0 - 1)) ∧
    (∀ x : ℚ, (fun _ : ℚ => true) x = false →
      calcWeight (fun a : ℚ => a)
          (mergeWithIndicator (fun _ : ℚ => (0 : ℚ)) (fun _ => true))
          (fun _ : ℚ => (1 : ℚ)) x = 0) ∧
    (∀ t2 : ℚ → ℚ, (∀ x : ℚ, (fun _ : ℚ => true) x = true → (0 : ℚ) = t2 x) →
      ((ISState.mk (fun _ : ℚ => (1 : ℚ))
          (mergeWithIndicator (fun _ : ℚ => (0 : ℚ)) (fun _ => true))
          History.empty).run (fun a : ℚ => a) [0]).history
        = ((ISState.mk (fun _ : ℚ => (1 : ℚ))
            (mergeWithIndicator t2 (fun _ => true))
            History.empty).run (fun a : ℚ => a) [0]).history) ∧
    ((ISState.mk (fun _ : ℚ => (1 : ℚ))
        (mergeWithIndicator (fun _ : ℚ => (0 : ℚ)) (fun _ => true))
        History.empty).run (fun a : ℚ => a) [0]).proposal = (fun _ : ℚ => (1 : ℚ)) ∧
    ((ISState.mk (fun _ : ℚ => (1 : ℚ))
        (mergeWithIndicator (fun _ : ℚ => (0 : ℚ)) (fun _ => true))
        History.empty).run (fun a : ℚ => a) [0]).target
      = mergeWithIndicator (fun _ : ℚ => (0 : ℚ)) (fun _ => true) :=
  importance_sampler_contract (fun a : ℚ => a) (fun _ : ℚ => (0 : ℚ))
    (fun _ => true) (fun _ : ℚ => (1 : ℚ)) History.empty [0]


/-- Witness for C6 at a concrete desynchronized state: the sample ledger was
cleared but the auxiliary ledger and the snapshot list still hold one row /
one snapshot. -/
theorem consistency_errors_fatal_witness :
    ((⟨fun _ : ℚ => (0 : ℚ), fun _ : ℚ => some (0 : ℚ), ⟨[], []⟩,
        ⟨[((1 : ℚ), (1 : ℚ))], [1]⟩, [fun _ : ℚ => (0 : ℚ)]⟩ : DISState ℚ ℚ).run
        (fun a : ℚ => a) [(0 : ℚ)]
      = Except.error (PyError.assertionError inconsistencyMessage)) ∧
    ∃ e, (⟨fun _ : ℚ => (0 : ℚ), fun _ : ℚ => some (0 : ℚ), ⟨[], []⟩,
        ⟨[((1 : ℚ), (1 : ℚ))], [1]⟩, [fun _ : ℚ => (0 : ℚ)]⟩ : DISState ℚ ℚ).run
        (fun a : ℚ => a) [(0 : ℚ)] = Except.error e :=
  ⟨(consistency_errors_fatal (fun a : ℚ => a)
      (⟨fun _ : ℚ => (0 : ℚ), fun _ : ℚ => some (0 : ℚ), ⟨[], []⟩,
        ⟨[((1 : ℚ), (1 : ℚ))], [1]⟩, [fun _ : ℚ => (0 : ℚ)]⟩ : DISState ℚ ℚ)
      [(0 : ℚ)] rfl rfl).1 (by decide),
    (consistency_errors_fatal (fun a : ℚ => a)
      (⟨fun _ : ℚ => (0 : ℚ), fun _ : ℚ => some (0 : ℚ), ⟨[], []⟩,
        ⟨[((1 : ℚ), (1 : ℚ))], [1]⟩, [fun _ : ℚ => (0 : ℚ)]⟩ : DISState ℚ ℚ)
      [(0 : ℚ)] rfl rfl).2 (by decide)⟩

/-- Witness for C7: two rounds of sizes 1 and 2. -/
theorem round_count_invariant_and_clear_witness :
    (∀ b ∈ [((fun _ : ℚ => (0 : ℚ)), [(0 : ℚ)]),
        ((fun _ : ℚ => (1 : ℚ)), [(1 : ℚ), 2])], b.2 ≠ []) ∧
    (∃ s1, runSequence (fun a : ℚ => a)
        (DISState.initial (fun _ : ℚ => some (0 : ℚ)) (fun _ : ℚ => (0 : ℚ)))
        [((fun _ : ℚ => (0 : ℚ)), [(0 : ℚ)]),
          ((fun _ : ℚ => (1 : ℚ)), [(1 : ℚ), 2])] = Except.ok s1 ∧
      s1.history.sizes = [1, 2] ∧
      s1.history.rows.length = 3 ∧
      s1.deltasTargets.sizes = s1.history.sizes ∧
      s1.deltasTargets.rows.length = s1.history.rows.length ∧
      s1.proposalHistory.length = 2 ∧
      s1.clear = DISState.initial s1.target s1.proposal) ∧
    (∀ s : DISState ℚ ℚ, s.clear.clear = s.clear) :=
  ⟨by simp,
    (round_count_invariant_and_clear (fun a : ℚ => a) _ _ _ (by simp)).1,
    (round_count_invariant_and_clear (fun a : ℚ => a)
      (fun _ : ℚ => some (0 : ℚ)) (fun _ : ℚ => (0 : ℚ)) [] (by simp)).2⟩

/-- Witness for C8 (amended) on two zero-weight samples and on the empty
list. -/
theorem moment_estimators_zero_weights_witness :
    (∀ p ∈ [((0 : ℚ), [(1 : ℚ)]), (0, [2])], p.1 = 0) ∧
    calculate_expectation [((0 : ℚ), [(1 : ℚ)]), (0, [2])] (fun _ => 3)
      = Except.ok none ∧
    calculate_mean [((0 : ℚ), [(1 : ℚ)]), (0, [2])] = Except.error
      (PyError.zeroDivisionError weightsSumZeroMessage) ∧
    calculate_covariance [((0 : ℚ), [(1 : ℚ)]), (0, [2])] = Except.error
      (PyError.zeroDivisionError weightsSumZeroMessage) ∧
    calculate_expectation ([] : List (ℚ × List ℚ)) (fun _ => 3)
      = Except.error (PyError.zeroDivisionError floatDivisionByZeroMessage) :=
  ⟨by decide,
    (moment_estimators_zero_weights _ (fun _ => 3) (by decide)).1 (by simp),
    (moment_estimators_zero_weights _ (fun _ => 3) (by decide)).2.2.1,
    (moment_estimators_zero_weights _ (fun _ => 3) (by decide)).2.2.2,
    (moment_estimators_zero_weights ([] : List (ℚ × List ℚ)) (fun _ => 3)
      (by simp)).2.1 rfl⟩

/-- Witness for C9 with the constant-one exponential over `ℚ`. -/
theorem weight_nonneg_witness :
    (∀ a : ℚ, (0 : ℚ) < (fun _ : ℚ => (1 : ℚ)) a) ∧
    (∀ (s : ISState ℚ ℚ) (pts : List ℚ),
      (∀ r ∈ s.history.rows, 0 ≤ r.1) →
      ∀ r ∈ (s.run (fun _ : ℚ => (1 : ℚ)) pts).history.rows, 0 ≤ r.1) ∧
    (∀ (s : DISState ℚ ℚ) (pts : List ℚ) (s1 : DISState ℚ ℚ),
      s.Coherent (fun _ : ℚ => (1 : ℚ)) →
      s.run (fun _ : ℚ => (1 : ℚ)) pts = Except.ok s1 →
      ∀ r ∈ s1.history.rows, 0 ≤ r.1) :=
  ⟨fun _ => by norm_num,
    (weight_nonneg (fun _ : ℚ => (1 : ℚ)) (fun _ => by norm_num)).1,
    (weight_nonneg (fun _ : ℚ => (1 : ℚ)) (fun _ => by norm_num)).2⟩

/-- Witness for C10 on the coherent initial state. -/
theorem run_zero_points_nameError_witness :
    (DISState.initial (fun _ : ℚ => some (0 : ℚ))
        (fun _ : ℚ => (0 : ℚ))).Coherent (fun a : ℚ => a) ∧
    (DISState.initial (fun _ : ℚ => some (0 : ℚ))
        (fun _ : ℚ => (0 : ℚ))).run (fun a : ℚ => a) []
      = Except.error (PyError.nameError missingLoopVariable) ∧
    ∀ s2 : ISState ℚ ℚ,
      (s2.run (fun a : ℚ => a) []).history.sizes = s2.history.sizes ++ [0] ∧
      (s2.run (fun a : ℚ => a) []).history.rows = s2.history.rows :=
  ⟨coherent_initial _ _ _,
    (run_zero_points_nameError (fun a : ℚ => a)
      (DISState.initial (fun _ : ℚ => some (0 : ℚ)) (fun _ : ℚ => (0 : ℚ)))
      (coherent_initial _ _ _)).1,
    (run_zero_points_nameError (fun a : ℚ => a)
      (DISState.initial (fun _ : ℚ => some (0 : ℚ)) (fun _ : ℚ => (0 : ℚ)))
      (coherent_initial _ _ _)).2⟩

end Pypmc
